import Mathlib

/-
Verification of the control-plane core and dashboard frontend of the
ai-agents repository.

The only executable source under src/ is the dashboard frontend
src/dashboard/static/app.js; its functions are embedded below under their
original names (updateConsole, convertTimestamp, getLogEmoji,
updateAgentBadge, runAgent, stopAgent, addSwarmModel, removeSwarmModel,
renderPortfolioChart, addConsoleMessage).  External JavaScript runtime
primitives (Number, Date.prototype.toLocaleTimeString) are passed in as a
JsEnv record of oracles, with Option encoding a thrown exception or an
undefined/NaN value.

The backend components (TelemetryQueue, RingBuffer, AgentController,
recentLogs) are not present under src/ (the repository only documents them
in a fixes-summary markdown file); they are modelled from the spec, each
with a doc comment saying so.
-/

/-- A telemetry log entry as produced by the backend and consumed by the
dashboard: a time-of-day timestamp string, a message, and an optional level
tag (JavaScript code defaults a missing level to "info"). -/
structure LogEntry where
  timestamp : String
  message : String
  level : Option String
  deriving DecidableEq

/-- JavaScript `field || dflt` on an optional string field: undefined and the
empty string are falsy and fall back to the default. -/
def jsOr (field : Option String) (dflt : String) : String :=
  match field with
  | none => dflt
  | some s => if s = "" then dflt else s

/-- Arguments of the `new Date(Date.UTC(year, month, day, hours, minutes,
seconds))` call in convertTimestamp: the current UTC year, month and day plus
the parsed time fields.  `none` in hours or minutes stands for NaN or
undefined (an invalid date). -/
structure JsDateArgs where
  year : Int
  month : Nat
  day : Nat
  hours : Option Int
  minutes : Option Int
  seconds : Int
  deriving DecidableEq

/-- External JavaScript runtime primitives used by the dashboard code:
`num` models `Number(s)` on the strings produced by splitting a timestamp
(`none` stands for NaN), `render` models
`Date.prototype.toLocaleTimeString(locale, {timeZone})` (`none` stands for a
thrown RangeError), and `today` is the current UTC (year, month, day). -/
structure JsEnv where
  num : String → Option Int
  render : String → JsDateArgs → Option String
  today : Int × Nat × Nat

/-- convertTimestamp from src/dashboard/static/app.js: splits the backend
HH:MM:SS string on ":", maps Number over the parts, builds a UTC date from
today plus those fields (`seconds || 0` collapses NaN and undefined to 0),
and formats it in the selected timezone; the "UTC" branch returns the input
unchanged and the surrounding try/catch returns the input unchanged whenever
the formatting call throws. -/
def convertTimestamp (env : JsEnv) (timestamp timezone : String) : String :=
  let nums := (timestamp.splitOn ":").map env.num
  let hours : Option Int := (nums[0]?).bind id
  let minutes : Option Int := (nums[1]?).bind id
  let seconds : Int := ((nums[2]?).bind id).getD 0
  let utcDate : JsDateArgs :=
    ⟨env.today.1, env.today.2.1, env.today.2.2, hours, minutes, seconds⟩
  if timezone = "local" then (env.render "local" utcDate).getD timestamp
  else if timezone = "UTC" then timestamp
  else (env.render timezone utcDate).getD timestamp

/-- A concrete JsEnv whose formatting oracle always throws; used to evaluate
the embedded functions on closed inputs. -/
def trivialEnv : JsEnv :=
  ⟨fun s => s.toInt?, fun _ _ => none, (2026, 9, 11)⟩

/-- C8: convertTimestamp is total and acts as the identity in two cases: with
timezone "UTC" it returns the timestamp unchanged for every input string, and
whenever the timezone formatting call fails it falls into the catch branch
and returns the original timestamp string; being a total Lean function it
never throws. -/
theorem C8_convertTimestamp_identity :
    (∀ (env : JsEnv) (t : String), convertTimestamp env t "UTC" = t)
    ∧ (∀ (env : JsEnv) (t tz : String),
        (∀ z d, env.render z d = none) → convertTimestamp env t tz = t) := by
  constructor
  · intro env t
    simp [convertTimestamp]
  · intro env t tz hfail
    unfold convertTimestamp
    split
    · simp [hfail]
    · split
      · rfl
      · simp [hfail]

/-- C8 witness: the theorem applied to a concrete environment whose
formatting oracle always fails and a concrete non-UTC timezone. -/
theorem C8_witness :
    convertTimestamp trivialEnv "12:34:56" "America/New_York" = "12:34:56" :=
  C8_convertTimestamp_identity.2 trivialEnv "12:34:56" "America/New_York"
    (fun _ _ => rfl)

/-- Decides whether the first character list is a prefix of the second. -/
def charListPrefix : List Char → List Char → Bool
  | [], _ => true
  | _ :: _, [] => false
  | a :: as, b :: bs => a = b && charListPrefix as bs

/-- Decides whether the character list `t` occurs contiguously inside the
second argument. -/
def hasSubstr (t : List Char) : List Char → Bool
  | [] => charListPrefix t []
  | c :: s => charListPrefix t (c :: s) || hasSubstr t s

/-- Substring containment, modelling JavaScript String.prototype.includes. -/
def strIncludes (s sub : String) : Bool := hasSubstr sub.data s.data

/-- Character-wise lowercasing, modelling String.prototype.toLowerCase on the
ASCII messages the dashboard handles. -/
def strToLower (s : String) : String := ⟨s.data.map Char.toLower⟩

/-- getLogEmoji from src/dashboard/static/app.js: selective emoji prefixes
keyed on the lowercased message and on the level (defaulted to "info"). -/
def getLogEmoji (log : LogEntry) : String :=
  let msg := strToLower log.message
  let level := jsOr log.level "info"
  if level = "success" ∧ strIncludes msg "started" then "▶️ "
  else if level = "info" ∧ strIncludes msg "stopped" then "⏹️ "
  else if level = "trade" ∧ (strIncludes msg "📈" ∨ strIncludes msg "📉") then ""
  else if level = "error" then "❌ "
  else ""

/-- One rendered console line, mirroring the template
`<div class="console-line ${levelClass}">${emoji}[${displayTime}] ${log.message}</div>`
produced by updateConsole. -/
structure ConsoleLine where
  levelCss : String
  emoji : String
  displayTime : String
  message : String
  deriving DecidableEq

/-- The per-entry rendering step inside updateConsole in
src/dashboard/static/app.js. -/
def renderLine (env : JsEnv) (timezone : String) (log : LogEntry) : ConsoleLine :=
  ⟨jsOr log.level "info", getLogEmoji log,
    convertTimestamp env log.timestamp timezone, log.message⟩

/-- The list rendering step of updateConsole: `logs.slice(-50).reverse()`
keeps the last 50 entries and reverses them (newest first), then each entry
is rendered to a console line.  `List.rtake 50` is exactly `slice(-50)`. -/
def consoleLines (env : JsEnv) (timezone : String) (logs : List LogEntry) :
    List ConsoleLine :=
  ((logs.rtake 50).reverse).map (renderLine env timezone)

/-- Outcome of one updateConsole invocation: the empty-list placeholder, a
list of rendered lines, or the catch branch that logs the error to the
browser console without rethrowing. -/
inductive ConsoleView where
  | noActivity
  | lines (ls : List ConsoleLine)
  | errorLogged (e : String)
  deriving DecidableEq

/-- updateConsole from src/dashboard/static/app.js: the fetch/parse outcome
comes in as an Except (error = a thrown fetch or render failure, caught by
the surrounding try/catch); an empty log list renders the fixed
"No activity yet" placeholder. -/
def updateConsole (env : JsEnv) (timezone : String)
    (resp : Except String (List LogEntry)) : ConsoleView :=
  match resp with
  | .error e => .errorLogged e
  | .ok logs =>
    if logs.length = 0 then .noActivity
    else .lines (consoleLines env timezone logs)

/-- addConsoleMessage from src/dashboard/static/app.js: prepends a locally
produced line (newest first) and then removes lines from the end while more
than 50 remain. -/
def addConsoleMessage (lines : List ConsoleLine)
    (message level time : String) : List ConsoleLine :=
  (⟨level, "", time, message⟩ :: lines).take 50

/-- Modelled from the spec: the RingBuffer of section 3 (the LogWriter that
owns it lives in trading_app.py, which is not under src/): a bounded
most-recent-N snapshot of log entries, default size 200. -/
structure RingBuffer where
  size : Nat
  entries : List LogEntry
  deriving DecidableEq

/-- Modelled from the spec: LogWriter appends an entry to the RingBuffer,
evicting the oldest entries so that at most `size` remain; keeping the last
`size` elements is `List.rtake`. -/
def RingBuffer.push (rb : RingBuffer) (e : LogEntry) : RingBuffer :=
  { rb with entries := (rb.entries ++ [e]).rtake rb.size }

/-- Folding a sequence of submitted entries into the ring buffer. -/
def RingBuffer.pushAll (rb : RingBuffer) (es : List LogEntry) : RingBuffer :=
  es.foldl RingBuffer.push rb

lemma reverse_rtake {α : Type} (l : List α) (n : Nat) :
    (l.rtake n).reverse = l.reverse.take n := by
  rw [List.rtake_eq_reverse_take_reverse, List.reverse_reverse]

lemma length_rtake_le {α : Type} (l : List α) (n : Nat) :
    (l.rtake n).length ≤ n := by
  simp only [List.rtake, List.length_drop]
  omega

lemma rtake_of_length_le {α : Type} (l : List α) (n : Nat)
    (h : l.length ≤ n) : l.rtake n = l := by
  simp [List.rtake, Nat.sub_eq_zero_of_le h]

lemma rtake_append_left {α : Type} (xs ys : List α) (n : Nat) :
    (xs.rtake n ++ ys).rtake n = (xs ++ ys).rtake n := by
  simp only [List.rtake_eq_reverse_take_reverse, List.reverse_append,
    List.reverse_reverse, List.take_append_eq_append_take, List.take_take,
    List.length_reverse]
  rw [min_eq_left (Nat.sub_le n ys.length)]

lemma pushAll_entries (es : List LogEntry) (rb : RingBuffer)
    (h : rb.entries.length ≤ rb.size) :
    (rb.pushAll es).entries = (rb.entries ++ es).rtake rb.size := by
  induction es generalizing rb with
  | nil =>
    simp [RingBuffer.pushAll, rtake_of_length_le _ _ h]
  | cons e es ih =>
    have hstep : rb.pushAll (e :: es) = (rb.push e).pushAll es := rfl
    have hlen : (rb.push e).entries.length ≤ (rb.push e).size :=
      length_rtake_le _ _
    rw [hstep, ih (rb.push e) hlen]
    show ((rb.entries ++ [e]).rtake rb.size ++ es).rtake rb.size
        = (rb.entries ++ e :: es).rtake rb.size
    rw [rtake_append_left]
    simp

/-- A concrete log entry used to evaluate the embedding on closed inputs. -/
def sampleEntry : LogEntry := ⟨"00:00:00", "msg", some "info"⟩

/-- C2 counterexample: with 51 retained entries the console renders only 50
lines, although the most recent min(total, 200) retained entries number 51;
so the dashboard console does not render all retained entries. -/
theorem C2_counterexample :
    (consoleLines trivialEnv "UTC" (List.replicate 51 sampleEntry)).length = 50
    ∧ (List.replicate 51 sampleEntry).length = 51
    ∧ min (List.replicate 51 sampleEntry).length 200 = 51 := by
  refine ⟨?_, by simp, by simp⟩
  simp [consoleLines, List.rtake]

/-- C2 (amended): the retained ring buffer holds exactly the most recent
min(total, 200) entries regardless of how many were submitted, but the
dashboard console renders only the most recent min(retained, 50) of them
(newest first), and locally added console messages are likewise trimmed
to 50. -/
theorem C2_ring_buffer_and_console_depth :
    (∀ (es : List LogEntry),
        ((RingBuffer.mk 200 []).pushAll es).entries = es.rtake 200)
    ∧ (∀ (env : JsEnv) (tz : String) (logs : List LogEntry),
        consoleLines env tz logs
          = (logs.reverse.take 50).map (renderLine env tz))
    ∧ (∀ (lines : List ConsoleLine) (m lv t : String),
        (addConsoleMessage lines m lv t).length = min (lines.length + 1) 50) := by
  refine ⟨?_, ?_, ?_⟩
  · intro es
    have h := pushAll_entries es (RingBuffer.mk 200 []) (by simp)
    simpa using h
  · intro env tz logs
    rw [consoleLines, reverse_rtake]
  · intro lines m lv t
    simp only [addConsoleMessage, List.length_take, List.length_cons]
    omega

/-- Lexicographic strict order on character lists, used to compare HH:MM:SS
timestamp strings (on fixed-width digit strings this is chronological
order). -/
def charListLt : List Char → List Char → Bool
  | [], [] => false
  | [], _ :: _ => true
  | _ :: _, [] => false
  | a :: as, b :: bs => a < b || (a = b && charListLt as bs)

/-- Strict order on strings via their character lists. -/
def strLt (a b : String) : Bool := charListLt a.data b.data

/-- Decides whether a list of timestamp strings is ordered newest first,
i.e. no element is strictly smaller than its successor. -/
def sortedNewestFirst : List String → Bool
  | [] => true
  | [_] => true
  | a :: b :: r => !(strLt a b) && sortedNewestFirst (b :: r)

/-- Two concrete entries whose arrival order is the opposite of their
timestamp order. -/
def entryA : LogEntry := ⟨"02:00:00", "later event", some "info"⟩

/-- Companion entry for the C3 counterexample, carrying the earlier
timestamp but arriving second. -/
def entryB : LogEntry := ⟨"01:00:00", "earlier event", some "info"⟩

/-- C3 counterexample: for the fetched list [A(02:00:00), B(01:00:00)] the
console shows times ["01:00:00", "02:00:00"], which is not sorted with the
newest timestamp first; updateConsole merely reverses arrival order and does
not sort by timestamp. -/
theorem C3_counterexample :
    ((consoleLines trivialEnv "UTC" [entryA, entryB]).map
        (fun l => l.displayTime)) = ["01:00:00", "02:00:00"]
    ∧ sortedNewestFirst
        ((consoleLines trivialEnv "UTC" [entryA, entryB]).map
          (fun l => l.displayTime)) = false := by
  constructor
  · decide
  · decide

/-- C3 (amended): the console line sequence produced by updateConsole is the
reversal of the arrival order of the (at most 50) most recent fetched
entries; with the UTC timezone the displayed times are the recorded
timestamps verbatim, so the display sorts by timestamp only when arrival
order already agrees with timestamp order. -/
theorem C3_console_reverse_arrival_order :
    ∀ (env : JsEnv) (logs : List LogEntry),
      (consoleLines env "UTC" logs).map (fun l => l.displayTime)
        = ((logs.rtake 50).map (fun e => e.timestamp)).reverse := by
  intro env logs
  have h : ((fun l : ConsoleLine => l.displayTime) ∘ renderLine env "UTC")
      = fun e : LogEntry => e.timestamp := by
    funext e
    exact C8_convertTimestamp_identity.1 env e.timestamp
  simp only [consoleLines, List.map_reverse, List.map_map, h]

/-- Modelled from the spec: the TelemetryQueue of sections 3 and 4.3 (the
log_queue of trading_app.py, which is not under src/): a fixed-capacity
bounded buffer of log entries, default capacity 1000, with a monotonically
increasing droppedCount. -/
structure TelemetryQueue where
  capacity : Nat
  entries : List LogEntry
  droppedCount : Nat
  deriving DecidableEq

/-- A fresh queue of the given capacity. -/
def TelemetryQueue.empty (capacity : Nat) : TelemetryQueue :=
  ⟨capacity, [], 0⟩

/-- Modelled from the spec: non-blocking enqueue with the drop-newest-reject
overflow policy; at capacity the entry is rejected, droppedCount is
incremented by one, and the call returns false immediately. -/
def TelemetryQueue.enqueue (q : TelemetryQueue) (e : LogEntry) :
    TelemetryQueue × Bool :=
  if q.capacity ≤ q.entries.length then
    ({ q with droppedCount := q.droppedCount + 1 }, false)
  else
    ({ q with entries := q.entries ++ [e] }, true)

/-- Folding a whole sequence of producer submissions into the queue. -/
def TelemetryQueue.enqueueAll (q : TelemetryQueue) (es : List LogEntry) :
    TelemetryQueue :=
  es.foldl (fun q e => (q.enqueue e).1) q

lemma enqueue_capacity (q : TelemetryQueue) (e : LogEntry) :
    (q.enqueue e).1.capacity = q.capacity := by
  unfold TelemetryQueue.enqueue
  split <;> rfl

lemma enqueue_length_le (q : TelemetryQueue) (e : LogEntry)
    (h : q.entries.length ≤ q.capacity) :
    (q.enqueue e).1.entries.length ≤ q.capacity := by
  unfold TelemetryQueue.enqueue
  split
  · simpa using h
  · rename_i hlt
    simp only [List.length_append, List.length_singleton]
    omega

lemma enqueueAll_length_le (es : List LogEntry) (q : TelemetryQueue)
    (h : q.entries.length ≤ q.capacity) :
    (q.enqueueAll es).entries.length ≤ q.capacity := by
  induction es generalizing q with
  | nil => exact h
  | cons e es ih =>
    have hstep : q.enqueueAll (e :: es) = ((q.enqueue e).1).enqueueAll es := rfl
    rw [hstep]
    have hcap := enqueue_capacity q e
    have hlen := enqueue_length_le q e h
    have := ih (q.enqueue e).1 (by rw [hcap]; exact hlen)
    rwa [hcap] at this

/-- C1: for every capacity and every sequence of enqueue calls starting from
the empty queue the number of held entries never exceeds the capacity; an
enqueue on a queue at capacity rejects the new entry (entries unchanged,
returns false immediately) and increments droppedCount by exactly one, and
droppedCount never decreases across any enqueue. -/
theorem C1_telemetry_queue_bounded :
    (∀ (cap : Nat) (es : List LogEntry),
        ((TelemetryQueue.empty cap).enqueueAll es).entries.length ≤ cap)
    ∧ (∀ (q : TelemetryQueue) (e : LogEntry), q.entries.length = q.capacity →
        (q.enqueue e).1.entries = q.entries
        ∧ (q.enqueue e).1.droppedCount = q.droppedCount + 1
        ∧ (q.enqueue e).2 = false)
    ∧ (∀ (q : TelemetryQueue) (e : LogEntry),
        q.droppedCount ≤ (q.enqueue e).1.droppedCount) := by
  refine ⟨?_, ?_, ?_⟩
  · intro cap es
    exact enqueueAll_length_le es (TelemetryQueue.empty cap) (by simp [TelemetryQueue.empty])
  · intro q e hfull
    have hcond : q.capacity ≤ q.entries.length := le_of_eq hfull.symm
    unfold TelemetryQueue.enqueue
    rw [if_pos hcond]
    exact ⟨rfl, rfl, rfl⟩
  · intro q e
    unfold TelemetryQueue.enqueue
    split
    · simp
    · simp

/-- C1 witness: the theorem applied to a concrete queue of capacity 1 that
already holds one entry; the enqueue is rejected, droppedCount becomes 1 and
the result flag is false. -/
theorem C1_witness :
    (⟨1, [sampleEntry], 0⟩ : TelemetryQueue).entries.length
        = (⟨1, [sampleEntry], 0⟩ : TelemetryQueue).capacity
    ∧ ((⟨1, [sampleEntry], 0⟩ : TelemetryQueue).enqueue sampleEntry).1.entries
        = [sampleEntry]
    ∧ ((⟨1, [sampleEntry], 0⟩ : TelemetryQueue).enqueue sampleEntry).1.droppedCount
        = 0 + 1
    ∧ ((⟨1, [sampleEntry], 0⟩ : TelemetryQueue).enqueue sampleEntry).2 = false :=
  ⟨rfl, C1_telemetry_queue_bounded.2.1 ⟨1, [sampleEntry], 0⟩ sampleEntry rfl⟩

/-- Modelled from the spec: the lifecycle phases of section 3. -/
inductive Phase where
  | STOPPED
  | RUNNING
  | STOPPING
  deriving DecidableEq

/-- Modelled from the spec: AgentState of section 3 (phase and executing
flag) extended with the number of live worker threads, so that
"spawns exactly one worker" is expressible.  The AgentController owning it
lives in trading_app.py, which is not under src/. -/
structure AgentState where
  phase : Phase
  executing : Bool
  workers : Nat
  deriving DecidableEq

/-- The initial process state: stopped, not executing, no worker. -/
def AgentState.init : AgentState := ⟨.STOPPED, false, 0⟩

/-- Modelled from the spec: start() of section 4.1 — if the phase is not
STOPPED it returns already_running with no side effect, otherwise it sets
phase RUNNING, spawns exactly one worker and returns started. -/
def AgentState.start (s : AgentState) : AgentState × String :=
  if s.phase ≠ .STOPPED then (s, "already_running")
  else ({ s with phase := .RUNNING, workers := s.workers + 1 }, "started")

/-- Modelled from the spec: stop() of section 4.1 — not_running when already
stopped; otherwise the worker is joined (joinOk models joining within the
join timeout) and stopped is returned, or on timeout the phase is forced to
STOPPED, the worker is abandoned (workers is not decremented) and
stopped_forced is returned.  The operation is modelled atomically, so the
returned snapshot reports executing = false, matching the invariant of
section 3 that executing implies phase RUNNING. -/
def AgentState.stop (s : AgentState) (joinOk : Bool) : AgentState × String :=
  if s.phase = .STOPPED then (s, "not_running")
  else if joinOk then
    ({ s with phase := .STOPPED, executing := false, workers := s.workers - 1 },
      "stopped")
  else
    ({ s with phase := .STOPPED, executing := false }, "stopped_forced")

/-- Modelled from the spec: the atomic events of the control plane — the two
controller operations plus the scheduler of section 4.2 setting the
executing flag around each invocation of the cycle function. -/
inductive AgentEvent where
  | start
  | stop (joinOk : Bool)
  | beginCycle
  | endCycle

/-- One atomic transition of the modelled control plane. -/
def AgentState.step (s : AgentState) : AgentEvent → AgentState
  | .start => s.start.1
  | .stop j => (s.stop j).1
  | .beginCycle => if s.phase = .RUNNING then { s with executing := true } else s
  | .endCycle => { s with executing := false }

/-- States reachable from the initial state by atomic control-plane events. -/
inductive AgentState.Reachable : AgentState → Prop where
  | init : AgentState.Reachable AgentState.init
  | step : ∀ {s : AgentState} (e : AgentEvent),
      AgentState.Reachable s → AgentState.Reachable (s.step e)

/-- Modelled from the spec: the status() snapshot of section 6, exposing
running and executing booleans. -/
structure StatusView where
  running : Bool
  executing : Bool
  deriving DecidableEq

/-- Modelled from the spec: status() reports running exactly when the phase
is RUNNING, together with the executing flag. -/
def AgentState.statusQuery (s : AgentState) : StatusView :=
  ⟨decide (s.phase = .RUNNING), s.executing⟩

/-- Rendered state of the agent badge and of the run/pause buttons, as set by
updateAgentBadge. -/
structure BadgeView where
  text : String
  css : String
  runBtnVisible : Bool
  pauseBtnVisible : Bool
  deriving DecidableEq

/-- updateAgentBadge from src/dashboard/static/app.js: executing shows
RUNNING regardless of the running flag, running alone shows stand by,
otherwise ready. -/
def updateAgentBadge (isRunning isExecuting : Bool) : BadgeView :=
  if isExecuting then ⟨"RUNNING", "agent-badge running", false, true⟩
  else if isRunning then ⟨"stand by", "agent-badge running", false, true⟩
  else ⟨"ready", "agent-badge ready", true, false⟩

/-- A control API response body as consumed by the dashboard handlers: the
status string plus an optional message field (absent fields read as the
JavaScript undefined). -/
structure ApiResponse where
  status : String
  message : Option String
  deriving DecidableEq

/-- JavaScript coercion of a possibly-undefined string field into displayed
text: a missing field renders as the literal text undefined. -/
def jsShow (o : Option String) : String := o.getD "undefined"

/-- runAgent from src/dashboard/static/app.js: returns the (message, level)
console messages added, and whether updateDashboard was triggered.  The
handler first logs the starting message, then branches on the response
status, with a catch branch for a thrown fetch error. -/
def runAgent (resp : Except String ApiResponse) :
    List (String × String) × Bool :=
  let first := ("Starting trading agent...", "info")
  match resp with
  | .error e => ([first, ("Error starting agent: " ++ e, "error")], false)
  | .ok data =>
    if data.status = "started" then
      ([first, ("Trading agent started successfully", "success")], true)
    else if data.status = "already_running" then
      ([first, ("Agent is already running", "warning")], false)
    else
      ([first, (jsShow data.message, "warning")], false)

/-- stopAgent from src/dashboard/static/app.js: same shape as runAgent, with
the stop-specific messages; only the stopped branch triggers an immediate
dashboard refresh. -/
def stopAgent (resp : Except String ApiResponse) :
    List (String × String) × Bool :=
  let first := ("Stopping trading agent...", "info")
  match resp with
  | .error e => ([first, ("Error stopping agent: " ++ e, "error")], false)
  | .ok data =>
    if data.status = "stopped" then
      ([first, ("Trading agent stopped successfully", "info")], true)
    else if data.status = "not_running" then
      ([first, ("Agent is not running", "warning")], false)
    else
      ([first, (jsShow data.message, "warning")], false)

/-- C4: every stop() response status is one of stopped, stopped_forced and
not_running; on a failed join from a non-stopped phase the phase is forced
to STOPPED and stopped_forced is returned; and the stopAgent handler
displays a definite console message for each of the three statuses,
including stopped_forced (which falls to the else branch and displays the
message field of the response as a warning). -/
theorem C4_stop_statuses_handled :
    (∀ (s : AgentState) (j : Bool),
        (s.stop j).2 ∈ ["stopped", "stopped_forced", "not_running"])
    ∧ (∀ (s : AgentState) (j : Bool), s.phase ≠ .STOPPED → j = false →
        (s.stop j).2 = "stopped_forced" ∧ (s.stop j).1.phase = .STOPPED)
    ∧ (∀ (m : Option String),
        stopAgent (.ok ⟨"stopped", m⟩)
          = ([("Stopping trading agent...", "info"),
              ("Trading agent stopped successfully", "info")], true)
        ∧ stopAgent (.ok ⟨"not_running", m⟩)
          = ([("Stopping trading agent...", "info"),
              ("Agent is not running", "warning")], false)
        ∧ stopAgent (.ok ⟨"stopped_forced", m⟩)
          = ([("Stopping trading agent...", "info"),
              (jsShow m, "warning")], false)) := by
  refine ⟨?_, ?_, ?_⟩
  · intro s j
    unfold AgentState.stop
    split
    · simp
    · split
      · simp
      · simp
  · intro s j hphase hj
    subst hj
    unfold AgentState.stop
    rw [if_neg hphase]
    exact ⟨rfl, rfl⟩
  · intro m
    refine ⟨rfl, rfl, rfl⟩

/-- C4 witness: the theorem applied to a concrete running state whose worker
does not join in time. -/
theorem C4_witness :
    ((⟨Phase.RUNNING, true, 1⟩ : AgentState).stop false).2 = "stopped_forced"
    ∧ ((⟨Phase.RUNNING, true, 1⟩ : AgentState).stop false).1.phase
        = Phase.STOPPED :=
  C4_stop_statuses_handled.2.1 ⟨Phase.RUNNING, true, 1⟩ false (by decide) rfl

/-- C5: start() from a non-stopped phase returns already_running with no side
effect; a second start() immediately after any start() is such a call, so it
spawns no additional worker and leaves the state unchanged; and the runAgent
handler shows the already-running warning without refreshing the dashboard,
while a started response triggers an immediate refresh. -/
theorem C5_start_idempotent_and_handler :
    (∀ s : AgentState, s.phase ≠ .STOPPED → s.start = (s, "already_running"))
    ∧ (∀ s : AgentState, s.start.1.start = (s.start.1, "already_running"))
    ∧ (∀ m : Option String,
        runAgent (.ok ⟨"already_running", m⟩)
          = ([("Starting trading agent...", "info"),
              ("Agent is already running", "warning")], false)
        ∧ runAgent (.ok ⟨"started", m⟩)
          = ([("Starting trading agent...", "info"),
              ("Trading agent started successfully", "success")], true)) := by
  refine ⟨?_, ?_, ?_⟩
  · intro s hphase
    unfold AgentState.start
    rw [if_pos hphase]
  · intro s
    rcases s with ⟨phase, executing, workers⟩
    cases phase <;> rfl
  · intro m
    exact ⟨rfl, rfl⟩

/-- C5 witness: the theorem applied to a concrete running state and to the
state reached by a first start() from the initial state. -/
theorem C5_witness :
    (⟨Phase.RUNNING, false, 1⟩ : AgentState).start
        = (⟨Phase.RUNNING, false, 1⟩, "already_running")
    ∧ AgentState.init.start.1.start
        = (AgentState.init.start.1, "already_running") :=
  ⟨C5_start_idempotent_and_handler.1 ⟨Phase.RUNNING, false, 1⟩ (by decide),
   C5_start_idempotent_and_handler.2.1 AgentState.init⟩

lemma step_preserves_inv (s : AgentState) (e : AgentEvent)
    (ih : s.executing = true → s.phase = .RUNNING) :
    (s.step e).executing = true → (s.step e).phase = .RUNNING := by
  rcases s with ⟨phase, executing, workers⟩
  cases e with
  | start =>
    cases phase <;> cases executing <;>
      simp_all [AgentState.step, AgentState.start]
  | stop j =>
    cases j <;> cases phase <;> cases executing <;>
      simp_all [AgentState.step, AgentState.stop]
  | beginCycle =>
    cases phase <;> cases executing <;>
      simp_all [AgentState.step]
  | endCycle =>
    cases phase <;> cases executing <;>
      simp_all [AgentState.step]

lemma reachable_executing_running {s : AgentState} (hr : s.Reachable) :
    s.executing = true → s.phase = .RUNNING := by
  induction hr with
  | init => intro h; exact absurd h (by simp [AgentState.init])
  | step e hr ih => exact step_preserves_inv _ e ih

/-- C6: in every reachable control-plane state, executing implies the phase
is RUNNING, so the status snapshot reports running = true whenever
executing = true; and the badge renderer labels the agent RUNNING whenever
executing is true, irrespective of the running flag. -/
theorem C6_executing_implies_running :
    (∀ s : AgentState, s.Reachable → s.executing = true →
        s.phase = .RUNNING ∧ s.statusQuery.running = true)
    ∧ (∀ r : Bool, (updateAgentBadge r true).text = "RUNNING") := by
  constructor
  · intro s hr hex
    have hphase := reachable_executing_running hr hex
    refine ⟨hphase, ?_⟩
    simp [AgentState.statusQuery, hphase]
  · intro r
    rfl

/-- C6 witness: the theorem applied to the concrete reachable state obtained
by starting the agent and beginning a cycle, and to both badge inputs. -/
theorem C6_witness :
    ((⟨Phase.RUNNING, true, 1⟩ : AgentState).phase = Phase.RUNNING
      ∧ (⟨Phase.RUNNING, true, 1⟩ : AgentState).statusQuery.running = true)
    ∧ (updateAgentBadge false true).text = "RUNNING" :=
  ⟨C6_executing_implies_running.1 ⟨Phase.RUNNING, true, 1⟩
      (show AgentState.Reachable ⟨Phase.RUNNING, true, 1⟩ from
        (AgentState.Reachable.init.step AgentEvent.start).step
          AgentEvent.beginCycle)
      rfl,
   C6_executing_implies_running.2 false⟩

/-- Modelled from the spec: recentLogs(limit, levelFilter?) of section 6 —
reads the ring buffer owned by LogWriter, optionally filters by level, and
returns the most recent `limit` retained entries in order; it is a total
query and never raises. -/
def recentLogs (rb : RingBuffer) (limit : Nat) (levelFilter : Option String) :
    List LogEntry :=
  let es := match levelFilter with
    | none => rb.entries
    | some lv => rb.entries.filter (fun e => jsOr e.level "info" = lv)
  es.rtake limit

lemma rtake_subset {α : Type} (l : List α) (n : Nat) : l.rtake n ⊆ l := by
  simp only [List.rtake]
  exact List.drop_subset _ l

/-- C7: the recent-logs query always returns a (possibly empty) list, of
length at most the requested limit and drawn only from the retained ring
buffer entries, for every buffer state and filter; and the console renderer
maps the empty list to the No activity placeholder, maps every caught fetch
or render failure to the logged-error branch rather than rethrowing, and
renders the fetched list otherwise. -/
theorem C7_recent_logs_safe :
    (∀ (rb : RingBuffer) (limit : Nat) (f : Option String),
        (recentLogs rb limit f).length ≤ limit
        ∧ ∀ e ∈ recentLogs rb limit f, e ∈ rb.entries)
    ∧ (∀ (env : JsEnv) (tz : String),
        updateConsole env tz (.ok []) = .noActivity)
    ∧ (∀ (env : JsEnv) (tz e : String),
        updateConsole env tz (.error e) = .errorLogged e)
    ∧ (∀ (env : JsEnv) (tz : String) (logs : List LogEntry), logs ≠ [] →
        updateConsole env tz (.ok logs)
          = .lines (consoleLines env tz logs)) := by
  refine ⟨?_, ?_, ?_, ?_⟩
  · intro rb limit f
    constructor
    · exact length_rtake_le _ _
    · intro e he
      have hsub := rtake_subset
        (match f with
          | none => rb.entries
          | some lv => rb.entries.filter (fun x => jsOr x.level "info" = lv))
        limit
      have hmem := hsub he
      cases f with
      | none => exact hmem
      | some lv => exact List.mem_of_mem_filter hmem
  · intro env tz
    rfl
  · intro env tz e
    rfl
  · intro env tz logs hne
    show (if logs.length = 0 then ConsoleView.noActivity
        else ConsoleView.lines (consoleLines env tz logs))
      = ConsoleView.lines (consoleLines env tz logs)
    rw [if_neg (by simpa using hne)]

/-- C7 witness: the theorem applied to a concrete one-entry buffer and a
concrete non-empty fetched list. -/
theorem C7_witness :
    (recentLogs ⟨200, [sampleEntry]⟩ 10 none).length ≤ 10
    ∧ updateConsole trivialEnv "UTC" (.ok [sampleEntry])
        = .lines (consoleLines trivialEnv "UTC" [sampleEntry]) :=
  ⟨(C7_recent_logs_safe.1 ⟨200, [sampleEntry]⟩ 10 none).1,
   C7_recent_logs_safe.2.2.2 trivialEnv "UTC" [sampleEntry] (by simp)⟩

/-- One swarm model configuration card, as held in the swarmModels array of
src/dashboard/static/app.js. -/
structure SwarmModel where
  provider : String
  model : String
  temperature : ℚ
  max_tokens : Int
  deriving DecidableEq

/-- The default model pushed by addSwarmModel. -/
def defaultSwarmModel : SwarmModel :=
  ⟨"gemini", "gemini-2.5-flash", 3 / 10, 2000⟩

/-- addSwarmModel from src/dashboard/static/app.js: returns unchanged when
six models are already configured, otherwise appends the default model. -/
def addSwarmModel (ms : List SwarmModel) : List SwarmModel :=
  if 6 ≤ ms.length then ms else ms ++ [defaultSwarmModel]

/-- JavaScript Array.prototype.splice(index, 1): the start position is
clamped to [0, length] (negative indices count from the end), and at most
one element from that position is removed. -/
def jsSpliceOne {α : Type} (ms : List α) (index : Int) : List α :=
  let start : Nat :=
    if index < 0 then ((ms.length : Int) + index).toNat
    else min index.toNat ms.length
  ms.take start ++ ms.drop (start + 1)

/-- removeSwarmModel from src/dashboard/static/app.js: returns unchanged when
only one model remains, otherwise splices one element out at the given
index. -/
def removeSwarmModel (ms : List SwarmModel) (index : Int) : List SwarmModel :=
  if ms.length ≤ 1 then ms else jsSpliceOne ms index

/-- An abstract user interaction with the swarm model list. -/
inductive SwarmOp where
  | add
  | remove (index : Int)

/-- Applies one interaction to the current list. -/
def applySwarmOp (ms : List SwarmModel) : SwarmOp → List SwarmModel
  | .add => addSwarmModel ms
  | .remove i => removeSwarmModel ms i

/-- Applies a whole interaction sequence. -/
def runSwarmOps (ms : List SwarmModel) (ops : List SwarmOp) : List SwarmModel :=
  ops.foldl applySwarmOp ms

lemma jsSpliceOne_length {α : Type} (ms : List α) (i : Int) :
    (jsSpliceOne ms i).length = ms.length
    ∨ (jsSpliceOne ms i).length = ms.length - 1 := by
  unfold jsSpliceOne
  simp only [List.length_append, List.length_take, List.length_drop]
  split <;> omega

lemma applySwarmOp_bounds (ms : List SwarmModel) (op : SwarmOp)
    (h1 : 1 ≤ ms.length) (h6 : ms.length ≤ 6) :
    1 ≤ (applySwarmOp ms op).length ∧ (applySwarmOp ms op).length ≤ 6 := by
  cases op with
  | add =>
    show 1 ≤ (addSwarmModel ms).length ∧ (addSwarmModel ms).length ≤ 6
    unfold addSwarmModel
    split
    · exact ⟨h1, h6⟩
    · rename_i hlt
      simp only [List.length_append, List.length_singleton]
      omega
  | remove i =>
    show 1 ≤ (removeSwarmModel ms i).length ∧ (removeSwarmModel ms i).length ≤ 6
    unfold removeSwarmModel
    split
    · exact ⟨h1, h6⟩
    · rename_i hgt
      rcases jsSpliceOne_length ms i with h | h <;> rw [h] <;> omega

/-- C9 counterexample: removeSwarmModel called with the out-of-range index 2
on a two-model list removes nothing, so removing does not always take out
exactly one model when more than one remains. -/
theorem C9_counterexample :
    removeSwarmModel [defaultSwarmModel, defaultSwarmModel] 2
        = [defaultSwarmModel, defaultSwarmModel]
    ∧ ([defaultSwarmModel, defaultSwarmModel] : List SwarmModel).length = 2 := by
  constructor
  · rfl
  · rfl

/-- C9 (amended): every interaction sequence preserves 1 ≤ length ≤ 6 from
any starting list in that range; addSwarmModel is a no-op at six models and
otherwise appends exactly the default model; removeSwarmModel is a no-op at
one model, removes exactly one model when the index is in bounds, and
removes nothing when the index is at or beyond the length. -/
theorem C9_swarm_models_invariant :
    (∀ (ms : List SwarmModel) (ops : List SwarmOp),
        1 ≤ ms.length → ms.length ≤ 6 →
        1 ≤ (runSwarmOps ms ops).length ∧ (runSwarmOps ms ops).length ≤ 6)
    ∧ (∀ ms : List SwarmModel, 6 ≤ ms.length → addSwarmModel ms = ms)
    ∧ (∀ ms : List SwarmModel, ms.length < 6 →
        addSwarmModel ms = ms ++ [defaultSwarmModel])
    ∧ (∀ (ms : List SwarmModel) (i : Int), ms.length ≤ 1 →
        removeSwarmModel ms i = ms)
    ∧ (∀ (ms : List SwarmModel) (i : Int),
        1 < ms.length → 0 ≤ i → i < (ms.length : Int) →
        (removeSwarmModel ms i).length = ms.length - 1)
    ∧ (∀ (ms : List SwarmModel) (i : Int), (ms.length : Int) ≤ i →
        removeSwarmModel ms i = ms) := by
  refine ⟨?_, ?_, ?_, ?_, ?_, ?_⟩
  · intro ms ops h1 h6
    induction ops generalizing ms with
    | nil => exact ⟨h1, h6⟩
    | cons op ops ih =>
      have hstep : runSwarmOps ms (op :: ops) = runSwarmOps (applySwarmOp ms op) ops := rfl
      rw [hstep]
      have hb := applySwarmOp_bounds ms op h1 h6
      exact ih (applySwarmOp ms op) hb.1 hb.2
  · intro ms h
    unfold addSwarmModel
    rw [if_pos h]
  · intro ms h
    unfold addSwarmModel
    rw [if_neg (by omega)]
  · intro ms i h
    unfold removeSwarmModel
    rw [if_pos h]
  · intro ms i hlen hi0 hilen
    unfold removeSwarmModel jsSpliceOne
    rw [if_neg (by omega)]
    simp only [List.length_append, List.length_take, List.length_drop]
    split
    · omega
    · have : i.toNat < ms.length := by omega
      omega
  · intro ms i hge
    unfold removeSwarmModel jsSpliceOne
    split
    · rfl
    · rename_i hgt
      have h0 : ¬ i < 0 := by
        intro hc
        omega
      rw [if_neg h0]
      have hmin : min i.toNat ms.length = ms.length := by omega
      rw [hmin]
      simp

/-- C9 witness: the theorem applied to concrete lists — a removal sequence
starting from one model stays in range, and an in-bounds removal from a
two-model list removes exactly one. -/
theorem C9_witness :
    (1 ≤ (runSwarmOps [defaultSwarmModel] [SwarmOp.remove 0]).length
      ∧ (runSwarmOps [defaultSwarmModel] [SwarmOp.remove 0]).length ≤ 6)
    ∧ (removeSwarmModel [defaultSwarmModel, defaultSwarmModel] 0).length
        = 2 - 1 :=
  ⟨C9_swarm_models_invariant.1 [defaultSwarmModel] [SwarmOp.remove 0]
      (by decide) (by decide),
   C9_swarm_models_invariant.2.2.2.2.1 [defaultSwarmModel, defaultSwarmModel] 0
      (by decide) (by decide) (by decide)⟩

/-- One point of the /api/history series, as far as the chart uses it. -/
structure HistoryPoint where
  balance : ℚ
  deriving DecidableEq

/-- The visible output of renderPortfolioChart: either the fixed No change
message with the single balance value, or the list of (x, y) line
coordinates. -/
inductive ChartView where
  | noChange (balance : ℚ)
  | chart (points : List (ℚ × ℚ))
  deriving DecidableEq

/-- SVG width used by renderPortfolioChart. -/
def chartWidth : ℚ := 600

/-- SVG height used by renderPortfolioChart. -/
def chartHeight : ℚ := 120

/-- SVG padding used by renderPortfolioChart. -/
def chartPadding : ℚ := 10

/-- renderPortfolioChart from src/dashboard/static/app.js: extracts the
balance series, computes its range, short-circuits to the No change message
when the range is zero, and otherwise maps each indexed value to an (x, y)
point.  The caller updatePortfolioChart only invokes it on a non-empty
history; balances are modelled as rationals. -/
def renderPortfolioChart (history : List HistoryPoint) : ChartView :=
  let values := history.map (fun h => h.balance)
  let vmax := values.foldl max (values.headD 0)
  let vmin := values.foldl min (values.headD 0)
  let range := vmax - vmin
  if range = 0 then .noChange (values.headD 0)
  else
    .chart (values.enum.map (fun p =>
      (((p.1 : ℚ) / ((values.length : ℚ) - 1)) * (chartWidth - chartPadding * 2)
          + chartPadding,
        chartHeight - chartPadding
          - ((p.2 - vmin) / range) * (chartHeight - chartPadding * 2))))

lemma foldl_max_init (l : List ℚ) (a : ℚ) : a ≤ l.foldl max a := by
  induction l generalizing a with
  | nil => exact le_refl a
  | cons x l ih => exact le_trans (le_max_left a x) (ih (max a x))

lemma foldl_max_mem (l : List ℚ) (a x : ℚ) (hx : x ∈ l) : x ≤ l.foldl max a := by
  induction l generalizing a with
  | nil => cases hx
  | cons y l ih =>
    rcases List.mem_cons.1 hx with h | h
    · subst h
      exact le_trans (le_max_right a x) (foldl_max_init l (max a x))
    · exact ih (max a y) h

lemma foldl_min_init (l : List ℚ) (a : ℚ) : l.foldl min a ≤ a := by
  induction l generalizing a with
  | nil => exact le_refl a
  | cons x l ih => exact le_trans (ih (min a x)) (min_le_left a x)

lemma foldl_min_mem (l : List ℚ) (a x : ℚ) (hx : x ∈ l) : l.foldl min a ≤ x := by
  induction l generalizing a with
  | nil => cases hx
  | cons y l ih =>
    rcases List.mem_cons.1 hx with h | h
    · subst h
      exact le_trans (foldl_min_init l (min a x)) (min_le_right a x)
    · exact ih (min a y) h

lemma foldl_max_const (l : List ℚ) (c : ℚ) (h : ∀ x ∈ l, x = c) :
    l.foldl max c = c := by
  induction l with
  | nil => rfl
  | cons x l ih =>
    have hx : x = c := h x (List.mem_cons_self x l)
    have hl : ∀ y ∈ l, y = c := fun y hy => h y (List.mem_cons_of_mem x hy)
    simp only [List.foldl_cons, hx, max_self]
    exact ih hl

lemma foldl_min_const (l : List ℚ) (c : ℚ) (h : ∀ x ∈ l, x = c) :
    l.foldl min c = c := by
  induction l with
  | nil => rfl
  | cons x l ih =>
    have hx : x = c := h x (List.mem_cons_self x l)
    have hl : ∀ y ∈ l, y = c := fun y hy => h y (List.mem_cons_of_mem x hy)
    simp only [List.foldl_cons, hx, min_self]
    exact ih hl

lemma mem_enum_snd {α : Type} (l : List α) (p : ℕ × α) (hp : p ∈ l.enum) :
    p.2 ∈ l := by
  have h := List.enum_map_snd l
  rw [← h]
  exact List.mem_map_of_mem Prod.snd hp

/-- C10: for every non-empty history whose balances are all equal the chart
renderer takes the guarded zero-range branch and renders the fixed No change
message without computing any point, and whenever it does emit chart points
every y-coordinate lies within [padding, height - padding]. -/
theorem C10_chart_guard_and_bounds :
    (∀ (history : List HistoryPoint) (c : ℚ), history ≠ [] →
        (∀ p ∈ history, p.balance = c) →
        renderPortfolioChart history = .noChange c)
    ∧ (∀ (history : List HistoryPoint) (pts : List (ℚ × ℚ)),
        renderPortfolioChart history = .chart pts →
        ∀ q ∈ pts, chartPadding ≤ q.2 ∧ q.2 ≤ chartHeight - chartPadding) := by
  constructor
  · intro history c hne hall
    have hvals : ∀ x ∈ history.map (fun h => h.balance), x = c := by
      intro x hx
      rcases List.mem_map.1 hx with ⟨p, hp, rfl⟩
      exact hall p hp
    have hhead : (history.map (fun h => h.balance)).headD 0 = c := by
      rcases history with _ | ⟨p, rest⟩
      · exact absurd rfl hne
      · simpa using hall p (List.mem_cons_self p rest)
    simp only [renderPortfolioChart]
    rw [hhead, foldl_max_const _ _ hvals, foldl_min_const _ _ hvals, sub_self]
    simp
  · intro history pts heq q hq
    simp only [renderPortfolioChart] at heq
    set vs := history.map (fun h => h.balance) with hvs
    set h0 := vs.headD 0 with hh0
    set vmax := vs.foldl max h0 with hvmax
    set vmin := vs.foldl min h0 with hvmin
    by_cases hr : vmax - vmin = 0
    · rw [if_pos hr] at heq
      simp at heq
    · rw [if_neg hr] at heq
      injection heq with hpts
      subst hpts
      rcases List.mem_map.1 hq with ⟨p, hp, rfl⟩
      have hmem : p.2 ∈ vs := mem_enum_snd vs p hp
      have hmin := foldl_min_mem vs h0 p.2 hmem
      have hmax := foldl_max_mem vs h0 p.2 hmem
      have hminmax : vmin ≤ vmax :=
        le_trans (foldl_min_init vs h0) (foldl_max_init vs h0)
      have hrange : 0 < vmax - vmin :=
        lt_of_le_of_ne (by linarith) (Ne.symm hr)
      have ht0 : 0 ≤ (p.2 - vmin) / (vmax - vmin) :=
        div_nonneg (by linarith) (le_of_lt hrange)
      have ht1 : (p.2 - vmin) / (vmax - vmin) ≤ 1 :=
        (div_le_one hrange).2 (by linarith)
      dsimp only
      simp only [chartHeight, chartPadding]
      constructor
      · nlinarith [ht0, ht1]
      · nlinarith [ht0, ht1]

/-- C10 witness: the theorem applied to a concrete constant history (guarded
branch) and to a concrete two-point history whose rendered y-coordinates are
110 and 10, both within [10, 110]. -/
theorem C10_witness :
    renderPortfolioChart [⟨(5 : ℚ)⟩] = ChartView.noChange 5
    ∧ (chartPadding ≤ (110 : ℚ) ∧ (110 : ℚ) ≤ chartHeight - chartPadding) :=
  ⟨C10_chart_guard_and_bounds.1 [⟨(5 : ℚ)⟩] 5 (by decide) (by decide),
   C10_chart_guard_and_bounds.2 [⟨(0 : ℚ)⟩, ⟨(1 : ℚ)⟩]
      [((10 : ℚ), (110 : ℚ)), ((590 : ℚ), (10 : ℚ))]
      (by norm_num [renderPortfolioChart, List.enum, List.enumFrom,
        chartWidth, chartHeight, chartPadding])
      ((10 : ℚ), (110 : ℚ)) (by norm_num)⟩
